import Mathlib

/-!
# ccAutomator — verification of the print/asset/capture orchestration core

Shallow embedding of the orchestration logic of the `ccAutomator` repository:

* the overwrite pre-check of `process_and_capture_card`
  (`src/automator.py`, lines 1008–1038);
* the storage existence probes `check_server_file_details`
  (`src/automator_utils.py`, lines 48–71; identical copy in `src/automator.py`,
  lines 71–94) and `_check_if_file_exists_on_server`
  (`src/mixins/image_mixin.py`, lines 206–213);
* the exact-match print search and include/exclude filtering of
  `_get_and_filter_prints` (`src/mixins/print_mixin.py`, lines 44–133;
  equivalently `src/automator.py`, lines 283–321);
* the selection strategy `_select_prints_from_candidate`
  (`src/mixins/print_mixin.py`, lines 139–163; identical copy in
  `src/automator.py`, lines 865–889);
* the canvas stabilization wait `_wait_for_canvas_stabilization`
  (`src/mixins/canvas_mixin.py`, lines 103–144);
* the art asset pipeline `_prepare_art_asset`
  (`src/mixins/image_mixin.py`, lines 318–451; equivalently
  `src/automator.py`, lines 740–863) together with its helpers
  `generate_safe_filename`, `get_image_mime_type_and_extension`,
  `_save_or_upload_image`;
* the outer per-card loop of `main` (`src/ccAutomator.py`, lines 793–800 and
  934–936).

Python `None`-or-value results become `Option`; Python exceptions become
`Except`; machine-external effects (HTTP HEAD/GET/PUT, the local filesystem,
the upscaler service) are threaded through an explicit world state recording
which storage keys exist and what the single network fetch / upscale call of
one pipeline run would return.
-/

namespace CcAutomator

/-! ## String helpers

The source manipulates Python `str` values.  We model them as Lean `String`s
and work on their `List Char` data where index arithmetic is needed (Python
string indices are code points, which matches `String.data`). -/

/-- Python `str.lower()` restricted to its ASCII action (the card names, set
codes and file names handled by the program are ASCII). -/
def lowerStr (s : String) : String :=
  String.mk (s.data.map Char.toLower)

/-- The trailing-slash test of `os.path.join`, computed on the character
data (`String.endsWith` itself does not reduce definitionally). -/
def strEndsWith (s suffix : String) : Bool :=
  List.isSuffixOf suffix.data s.data

/-- Python `s.strip('/')`. -/
def stripSlashes (s : String) : String :=
  String.mk (((s.data.dropWhile (fun c => c = '/')).reverse.dropWhile
    (fun c => c = '/')).reverse)

/-- Python `s.strip('-')`. -/
def stripDashes (l : List Char) : List Char :=
  ((l.dropWhile (fun c => c = '-')).reverse.dropWhile (fun c => c = '-')).reverse

/-- One character of the character class `[\s/:<>:"\\|?*&]` of
`generate_safe_filename` (`src/automator_utils.py`, line 78). -/
def isUnsafeChar (c : Char) : Bool :=
  c.isWhitespace || c = '/' || c = ':' || c = '<' || c = '>' || c = '"' ||
    c = '\\' || c = '|' || c = '?' || c = '*' || c = '&'

/-- Collapse runs of `'-'` to a single `'-'`
(the `re.sub(r'-+', '-', value)` step). -/
def collapseDashes : List Char → List Char
  | [] => []
  | c :: rest =>
    match collapseDashes rest with
    | [] => [c]
    | d :: ds => if c = '-' && d = '-' then d :: ds else c :: d :: ds

/-- `generate_safe_filename` (`src/automator_utils.py`, lines 73–81;
same body as `_generate_safe_filename`, `src/automator.py`, lines 244–252):
drop apostrophes and commas, keep the ASCII residue of the NFKD
normalization (the Unicode decomposition table is external; non-ASCII
characters are dropped, which agrees with the source on ASCII input),
turn runs of unsafe characters into a single hyphen, collapse hyphen runs,
strip boundary hyphens, lower-case. -/
def generateSafeFilename (value : String) : String :=
  let noPunct := value.data.filter (fun c => !(c = '\'' || c = ','))
  let ascii := noPunct.filter (fun c => c.toNat < 128)
  let dashed := ascii.map (fun c => if isUnsafeChar c then '-' else c)
  String.mk ((stripDashes (collapseDashes dashed)).map Char.toLower)

/-! ## Overwrite pre-check (`process_and_capture_card`, `src/automator.py`,
lines 1008–1038)

The decision uses only: whether an upload path is configured, whether the HEAD
probe reported the output key as existing, the reported last-modified time,
the `--overwrite` flag and the two optional time thresholds.  Timestamps are
modelled as `Int` (seconds); Python `datetime` ordering is total, so any
linear order works. -/

/-- The overwrite pre-check: `True` means the print is skipped (`continue`),
`False` means the capture proceeds and the file is written.  Mirrors
`src/automator.py`, lines 1009–1035: no check at all outside upload mode;
always write when the probe says the key does not exist; otherwise
`--overwrite` wins, else an `--overwrite-older-than` threshold writes
exactly when a timestamp is present and strictly older, else an
`--overwrite-newer-than` threshold writes exactly when a timestamp is
present and strictly newer, else skip. -/
def shouldSkipPrint (uploadPathSet : Bool) (fileExists : Bool)
    (lastModified : Option Int) (overwrite : Bool)
    (olderThan newerThan : Option Int) : Bool :=
  if uploadPathSet then
    if fileExists then
      if overwrite then false
      else
        match olderThan with
        | some t =>
          match lastModified with
          | some lm => if lm < t then false else true
          | none => true
        | none =>
          match newerThan with
          | some t =>
            match lastModified with
            | some lm => if t < lm then false else true
            | none => true
          | none => true
    else false
  else false

/-! ## Storage existence probes -/

/-- Outcome of the `requests.head` call: either a network exception
(`requests.exceptions.RequestException`) or a response with a status code and
an optional `Last-Modified` header. -/
inductive HeadResult where
  | exc
  | resp (status : Nat) (lastModified : Option String)
deriving Repr, DecidableEq

/-- `check_server_file_details` (`src/automator_utils.py`, lines 48–71;
identical copy in `src/automator.py`, lines 71–94).  `parseDate` models the
`datetime.strptime` RFC-1123 parse, `none` standing for `ValueError`. -/
def checkServerFileDetails (parseDate : String → Option Int) (url : String)
    (r : HeadResult) : Bool × Option Int :=
  if url.isEmpty then (false, none)
  else
    match r with
    | .exc => (false, none)
    | .resp status lastModifiedStr =>
      if status = 200 then
        match lastModifiedStr with
        | some s =>
          match parseDate s with
          | some d => (true, some d)
          | none => (true, none)
        | none => (true, none)
      else if status = 404 then (false, none)
      else (false, none)

/-- `_check_if_file_exists_on_server` (`src/mixins/image_mixin.py`,
lines 206–213): bare boolean variant used by the asset pipeline. -/
def checkIfFileExistsOnServer (url : String) (r : HeadResult) : Bool :=
  if url.isEmpty then false
  else
    match r with
    | .exc => false
    | .resp status _ => if status = 200 then true else false

/-! ## Print search and reconciliation -/

/-- One entry of the renderer's print dropdown, as recorded by
`_get_and_filter_prints` (`match_data`, `src/mixins/print_mixin.py`,
line 51): the option value, the raw option text, and the set / collector
number parsed out of a `"(SET #NUM)"` suffix when present. -/
structure PrintRec where
  index : String
  text : String
  set_name : Option String
  collector_number : Option String
deriving Repr, DecidableEq

/-- The exact-match guard of `_get_and_filter_prints`
(`src/mixins/print_mixin.py`, lines 48–50): the option text lower-cased must
start with the lower-cased card name, and the original option text must either
end right there or continue with `" ("`. -/
def exactMatchKeep (cardName optionText : String) : Bool :=
  List.isPrefixOf (lowerStr cardName).data (lowerStr optionText).data &&
    (optionText.data.length == cardName.data.length ||
      ((optionText.data.drop cardName.data.length).take 2 == [' ', '(']))

/-- The option texts surviving the exact-match guard, in dropdown order
(the loop of `src/mixins/print_mixin.py`, lines 44–56, restricted to the
text test; the per-option record construction is modelled by `PrintRec`). -/
def exactMatchTexts (cardName : String) (options : List String) : List String :=
  options.filter (exactMatchKeep cardName)

/-- The exclude (blacklist) filter (`src/mixins/print_mixin.py`,
lines 115–117): drop a print exactly when it has a set name whose
lower-casing is in the exclude list; with an empty exclude list the input is
returned unfiltered. -/
def excludeFiltered (allExactMatches : List PrintRec)
    (excludeSets : List String) : List PrintRec :=
  if excludeSets.isEmpty then allExactMatches
  else
    allExactMatches.filter (fun p =>
      !(match p.set_name with
        | some s => excludeSets.contains (lowerStr s)
        | none => false))

/-- The include (whitelist) filter (`src/mixins/print_mixin.py`,
lines 120–122): keep a print exactly when it has a set name whose
lower-casing is in the include list; with an empty include list the input is
returned unfiltered. -/
def includeFiltered (prints : List PrintRec)
    (includeSets : List String) : List PrintRec :=
  if includeSets.isEmpty then prints
  else
    prints.filter (fun p =>
      match p.set_name with
      | some s => includeSets.contains (lowerStr s)
      | none => false)

/-- The pure filtering core of `_get_and_filter_prints`
(`src/mixins/print_mixin.py`, lines 58–63 and 114–133; equivalently
`src/automator.py`, lines 297–321), taking the exact matches pulled from the
dropdown as input: an empty match list returns `([], false)` immediately;
otherwise excludes are applied, then includes, and an include list that
filtered everything out falls back to the post-exclusion list with the
fallback flag set. -/
def getAndFilterPrints (allExactMatches : List PrintRec)
    (includeSets excludeSets : List String) : List PrintRec × Bool :=
  if allExactMatches.isEmpty then ([], false)
  else
    let printsAfterExclude := excludeFiltered allExactMatches excludeSets
    let finalFilteredPrints := includeFiltered printsAfterExclude includeSets
    if !includeSets.isEmpty && finalFilteredPrints.isEmpty then
      (printsAfterExclude, true)
    else (finalFilteredPrints, false)

/-- `_select_prints_from_candidate` (`src/mixins/print_mixin.py`,
lines 139–163; identical copy in `src/automator.py`, lines 865–889).
`randIndex` models the draw of `random.choice` (reduced modulo the list
length, as `random.choice` always yields a valid element). -/
def selectPrintsFromCandidate (candidatePrints : List PrintRec)
    (selectionStrategy : String) (randIndex : Nat) : List PrintRec :=
  match candidatePrints with
  | [] => []
  | p :: ps =>
    if selectionStrategy = "all" then p :: ps
    else if selectionStrategy = "latest" then [p]
    else if selectionStrategy = "earliest" then [(p :: ps).getLast (by simp)]
    else if selectionStrategy = "random" then
      [(p :: ps).get ⟨randIndex % (ps.length + 1), by
        exact Nat.lt_of_lt_of_le (Nat.mod_lt _ (Nat.succ_pos _)) (by simp)⟩]
    else []

/-- The selection semantics stated by the specification and by the program's
own `--set-selection` help text (`src/ccAutomator.py`, line 186: "Pick a
representative print, then capture all prints from its set"): after picking
the representative, expand to every candidate sharing its `set_name`.
This definition follows the specification's words; it exists to be compared
against `selectPrintsFromCandidate`, which is what the code does. -/
def selectPrintsClaimed (candidatePrints : List PrintRec)
    (selectionStrategy : String) (randIndex : Nat) : List PrintRec :=
  if selectionStrategy = "all" then
    selectPrintsFromCandidate candidatePrints selectionStrategy randIndex
  else
    match selectPrintsFromCandidate candidatePrints selectionStrategy randIndex with
    | [rep] => candidatePrints.filter (fun p => p.set_name == rep.set_name)
    | l => l

/-! ## Canvas stabilization (`_wait_for_canvas_stabilization`,
`src/mixins/canvas_mixin.py`, lines 103–144)

The real loop polls `_get_canvas_hash` until a deadline.  The poll sequence is
modelled as a finite list of samples (`none` = canvas not ready, `some s` =
hash string `s`); exhausting the list is the timeout, which returns `none`. -/

/-- `STABILITY_CHECKS` (`src/mixins/canvas_mixin.py`, line 12). -/
def STABILITY_CHECKS : Nat := 3

/-- Python truthiness of the optional hash string (`initial_hash` is used as
a bare condition at line 122: `None` and `""` are falsy). -/
def pyTruthy : Option String → Bool
  | none => false
  | some s => !s.isEmpty

/-- The polling loop body (`src/mixins/canvas_mixin.py`, lines 112–144):
skip unusable samples (`if not current_hash`), skip samples equal to a truthy
`initial_hash` while `wait_for_change` is set, otherwise count consecutive
identical samples and return the current hash once `STABILITY_CHECKS`
is reached; running out of samples is the timeout and returns `none`. -/
def stabLoop : List (Option String) → Option String → Bool →
    Option String → Nat → Option String
  | [], _, _, _, _ => none
  | s :: rest, initial, wait, lastHash, stableCount =>
    match s with
    | none => stabLoop rest initial wait lastHash stableCount
    | some cur =>
      if cur.isEmpty then stabLoop rest initial wait lastHash stableCount
      else if wait && pyTruthy initial && (some cur == initial) then
        stabLoop rest initial wait lastHash stableCount
      else
        let stableCount' := if some cur == lastHash then stableCount + 1 else 1
        if STABILITY_CHECKS ≤ stableCount' then some cur
        else stabLoop rest initial wait (some cur) stableCount'

/-- `_wait_for_canvas_stabilization` (`src/mixins/canvas_mixin.py`,
lines 103–144): when called with a null prior hash while waiting for a
change, one extra sample is taken first to seed `initial_hash`
(lines 109–110); then the polling loop runs with `last_hash = None`,
`stable_count = 0`. -/
def waitForCanvasStabilization (samples : List (Option String))
    (initialHash : Option String) (waitForChange : Bool) : Option String :=
  match initialHash, waitForChange with
  | none, true =>
    match samples with
    | [] => none
    | s :: rest => stabLoop rest s true none 0
  | initial, wait => stabLoop samples initial wait none 0

/-! ## Art asset pipeline (`_prepare_art_asset`,
`src/mixins/image_mixin.py`, lines 318–451)

External effects are threaded through an explicit `PipelineWorld`: the set of
keys existing on the image server, the set of existing local paths, and the
outcome of the single Scryfall image fetch / Ilaria upscale call a run would
perform.  Image bytes are `List Nat`. -/

/-- The configuration fields of the automator consumed by the pipeline. -/
structure PipelineCfg where
  imageServerUrl : Option String
  downloadDir : Option String
  artPath : String
  upscaleArt : Bool
  ilariaUrl : Option String
  upscalerModel : String
  upscalerFactor : Nat
deriving Repr, DecidableEq

/-- The external world of one pipeline run: which storage keys exist, and
what the network fetch of the art crop (`_fetch_image_bytes`) and the Ilaria
upscale (`_upscale_image_with_ilaria`) would produce (`none` = failure). -/
structure PipelineWorld where
  serverFiles : List String
  localFiles : List String
  fetchResult : Option (List Nat)
  upscaleResult : Option (List Nat)
deriving Repr, DecidableEq

/-- A Python return value of `_prepare_art_asset`: either the bare `None` of
line 407 or a `(url, type_line)` pair. -/
inductive PyVal where
  | noneV
  | pairV (fst snd : Option String)
deriving Repr, DecidableEq

/-- Tuple-unpacking assignment `a, b = v` as performed by the caller
(`src/automator.py`, line 1046): unpacking Python `None` raises
`TypeError`. -/
def unpack2 : PyVal → Except String (Option String × Option String)
  | .noneV => .error "TypeError"
  | .pairV a b => .ok (a, b)

/-- Result of one `_prepare_art_asset` run: the returned value, the updated
world, and how often the original fetch and the upscale were invoked. -/
structure PrepareOut where
  ret : PyVal
  world : PipelineWorld
  fetchCalls : Nat
  upscaleCalls : Nat
deriving Repr, DecidableEq

/-- `os.path.join a b` for the non-empty, non-absolute right operands used by
the pipeline: insert a `/` unless `a` already ends with one. -/
def osJoin2 (a b : String) : String :=
  (if strEndsWith a "/" then a else a ++ "/") ++ b

/-- `urljoin(base, path)` for the configuration shapes the program uses
(an origin-only `--image-server` base and a root-relative art path):
concatenation. -/
def urljoinM (base path : String) : String := base ++ path

/-- `Path(download_dir) / art_path.strip('/') / subDir / fname`
(`src/mixins/image_mixin.py`, lines 180 and 378). -/
def localPathStr (d artPath subDir fname : String) : String :=
  d ++ "/" ++ stripSlashes artPath ++ "/" ++ subDir ++ "/" ++ fname

/-- The server URL of an asset under
`os.path.join(art_path, subDir, fname)` joined onto the image server base
(`src/mixins/image_mixin.py`, lines 151, 370, 402, 415, 436). -/
def serverArtUrl (srv artPath subDir fname : String) : String :=
  urljoinM srv (osJoin2 (osJoin2 artPath subDir) fname)

/-- `get_image_mime_type_and_extension` (`src/automator_utils.py`,
lines 83–103).  The PIL `Image.open` format probe is an external library
call; on the formats it recognises (JPEG/PNG/GIF) it agrees with the
magic-byte fallbacks embedded here, so the function is modelled by the
magic-byte chain. -/
def getImageMimeTypeAndExtension (b : List Nat) : String × String :=
  if b.take 3 = [0xff, 0xd8, 0xff] then ("image/jpeg", ".jpg")
  else if b.take 8 = [0x89, 0x50, 0x4e, 0x47, 0x0d, 0x0a, 0x1a, 0x0a] then
    ("image/png", ".png")
  else if b.take 6 = [0x47, 0x49, 0x46, 0x38, 0x37, 0x61] ||
      b.take 6 = [0x47, 0x49, 0x46, 0x38, 0x39, 0x61] then ("image/gif", ".gif")
  else if b.take 4 = [0x52, 0x49, 0x46, 0x46] && 12 < b.length &&
      (b.drop 8).take 4 = [0x57, 0x45, 0x42, 0x50] then ("image/webp", ".webp")
  else ("application/octet-stream", "")

/-- `art_crop_url.split('?')[0]`. -/
def takeBeforeQuery (s : String) : String :=
  String.mk (s.data.takeWhile (fun c => c ≠ '?'))

/-- The extension component of `os.path.splitext`: the suffix of the basename
from its last dot, the dot included; leading dots of the basename never start
an extension, and a dot-free basename has none. -/
def splitextExt (s : String) : String :=
  let base := (s.data.reverse.takeWhile (fun c => c ≠ '/')).reverse
  let rest := base.drop ((base.takeWhile (fun c => c = '.')).length)
  let revTail := rest.reverse.takeWhile (fun c => c ≠ '.')
  if revTail.length = rest.length then ""
  else String.mk ('.' :: revTail.reverse)

/-- The extensions accepted for the initial guess
(`src/mixins/image_mixin.py`, line 356). -/
def validExts : List String := [".jpg", ".jpeg", ".png", ".gif", ".webp"]

/-- The probe order of stage 1 (`src/mixins/image_mixin.py`, line 367):
the current guess first, then the remaining candidates. -/
def possibleExts (ext0 : String) : List String :=
  ext0 :: ([".jpg", ".png", ".jpeg", ".webp", ".gif"].filter (fun e => e ≠ ext0))

/-- `_save_or_upload_image` (`src/mixins/image_mixin.py`, lines 169–192)
restricted to its effect on the stores: a configured download directory wins
and writes locally; otherwise a configured image server receives a PUT;
otherwise nothing is persisted. -/
def saveOrUploadImage (cfg : PipelineCfg) (w : PipelineWorld)
    (subDir fname : String) : PipelineWorld :=
  match cfg.downloadDir with
  | some d =>
    { w with localFiles := localPathStr d cfg.artPath subDir fname :: w.localFiles }
  | none =>
    match cfg.imageServerUrl with
    | some srv =>
      { w with serverFiles := serverArtUrl srv cfg.artPath subDir fname :: w.serverFiles }
    | none => w

/-- Stage 1, the existence probe over candidate extensions
(`src/mixins/image_mixin.py`, lines 367–387): for each extension, the server
key is HEAD-checked first (when a server is configured), then the local path;
the first hit resolves — to the server URL whenever a server is configured,
else to the local path — and unresolved probes fall through to the next
extension. -/
def probeOriginalArt (cfg : PipelineCfg) (w : PipelineWorld) (stem : String) :
    List String → Option String
  | [] => none
  | e :: rest =>
    let fname := stem ++ e
    match cfg.imageServerUrl with
    | some srv =>
      if w.serverFiles.contains (serverArtUrl srv cfg.artPath "original" fname) then
        some (serverArtUrl srv cfg.artPath "original" fname)
      else
        match cfg.downloadDir with
        | some d =>
          if w.localFiles.contains (localPathStr d cfg.artPath "original" fname) then
            some (serverArtUrl srv cfg.artPath "original" fname)
          else probeOriginalArt cfg w stem rest
        | none => probeOriginalArt cfg w stem rest
    | none =>
      match cfg.downloadDir with
      | some d =>
        if w.localFiles.contains (localPathStr d cfg.artPath "original" fname) then
          some (localPathStr d cfg.artPath "original" fname)
        else probeOriginalArt cfg w stem rest
      | none => probeOriginalArt cfg w stem rest

/-- The upscaled sub-directory name (`src/mixins/image_mixin.py`,
line 411). -/
def upscaledDirName (cfg : PipelineCfg) : String :=
  generateSafeFilename cfg.upscalerModel ++ "-" ++
    toString cfg.upscalerFactor ++ "x"

/-- Stages 3–5 (`src/mixins/image_mixin.py`, lines 409–451): the optional
upscale — existence check under the model-and-factor sub-path, else one
upscaler invocation and a store of the result — followed by the resolution
preferring the upscaled URL, then the hosted original, then the raw art crop
URL.  `hasBytes` records whether stage 2 left original bytes in hand
(`original_art_bytes_for_pipeline`). -/
def prepareUpscaleAndResolve (cfg : PipelineCfg) (stem artCropUrl typeLine : String)
    (w : PipelineWorld) (hostedOrig : Option String) (hasBytes : Bool)
    (fetchCalls : Nat) : PrepareOut :=
  let r :=
    if cfg.upscaleArt && hasBytes && cfg.ilariaUrl.isSome then
      let updir := upscaledDirName cfg
      let upfname := stem ++ ".png"
      let serverHit :=
        match cfg.imageServerUrl with
        | some srv => w.serverFiles.contains (serverArtUrl srv cfg.artPath updir upfname)
        | none => false
      let localHit :=
        match cfg.downloadDir with
        | some d => w.localFiles.contains (localPathStr d cfg.artPath updir upfname)
        | none => false
      if serverHit || localHit then
        (match cfg.imageServerUrl with
         | some srv => some (serverArtUrl srv cfg.artPath updir upfname)
         | none =>
           match cfg.downloadDir with
           | some d => some (localPathStr d cfg.artPath updir upfname)
           | none => none,
         w, 0)
      else
        match w.upscaleResult with
        | some ub =>
          let upext := (getImageMimeTypeAndExtension ub).2
          let fname2 := stem ++ (if upext.isEmpty then ".png" else upext)
          let w' := saveOrUploadImage cfg w updir fname2
          (match cfg.imageServerUrl with
           | some srv => some (serverArtUrl srv cfg.artPath updir fname2)
           | none =>
             match cfg.downloadDir with
             | some d => some (localPathStr d cfg.artPath updir fname2)
             | none => none,
           w', 1)
        | none => (none, w, 1)
    else (none, w, 0)
  let finalUrl :=
    match r.1 with
    | some u => u
    | none =>
      match hostedOrig with
      | some u => u
      | none => artCropUrl
  ⟨.pairV (some finalUrl) (some typeLine), r.2.1, fetchCalls, r.2.2⟩

/-- `initial_ext_guess` after normalization (`src/mixins/image_mixin.py`,
lines 355–358): the lower-cased URL extension when it is one of the accepted
ones, else `".jpg"`. -/
def initialExtGuess (artCropUrl : String) : String :=
  let guessRaw := lowerStr (splitextExt (takeBeforeQuery artCropUrl))
  if guessRaw.isEmpty || !(validExts.contains guessRaw) then ".jpg" else guessRaw

/-- The sanitized `card_set_number` filename stem
(`src/mixins/image_mixin.py`, lines 360–362, 369). -/
def artStem (cardName setCode collectorNumber : String) : String :=
  generateSafeFilename cardName ++ "_" ++
    generateSafeFilename setCode ++ "_" ++ generateSafeFilename collectorNumber

/-- The extension the fetched original is stored under
(`src/mixins/image_mixin.py`, lines 393–394): the sniffed extension when
non-empty, else the initial guess. -/
def storedExt (artCropUrl : String) (bs : List Nat) : String :=
  if (getImageMimeTypeAndExtension bs).2.isEmpty then initialExtGuess artCropUrl
  else (getImageMimeTypeAndExtension bs).2

/-- The `hosted_original_art_url` recorded after a save
(`src/mixins/image_mixin.py`, lines 398–404): the server URL when a server
is configured, else the local path, else nothing. -/
def hostedOriginalUrl (cfg : PipelineCfg) (fname : String) : Option String :=
  match cfg.imageServerUrl with
  | some srv => some (serverArtUrl srv cfg.artPath "original" fname)
  | none =>
    match cfg.downloadDir with
    | some d => some (localPathStr d cfg.artPath "original" fname)
    | none => none

/-- `_prepare_art_asset` (`src/mixins/image_mixin.py`, lines 318–451;
equivalently `src/automator.py`, lines 740–863).  The Scryfall metadata
lookup of step 1 (lines 326–347) is an external HTTP call whose outcome is
supplied as `artCropUrl` / `typeLine`, the empty string standing for a falsy
`art_crop_url` (which returns `(None, None)` at line 347).  Stage 2 mirrors
lines 389–407, including the bare `return None` of line 407 on a failed or
empty fetch. -/
def prepareArtAsset (cfg : PipelineCfg) (cardName setCode collectorNumber : String)
    (artCropUrl typeLine : String) (w : PipelineWorld) : PrepareOut :=
  if artCropUrl.isEmpty then ⟨.pairV none none, w, 0, 0⟩
  else
    let stem := artStem cardName setCode collectorNumber
    let hosted0 :=
      if cfg.imageServerUrl.isSome || cfg.downloadDir.isSome then
        probeOriginalArt cfg w stem (possibleExts (initialExtGuess artCropUrl))
      else none
    if hosted0.isNone || cfg.upscaleArt then
      match w.fetchResult with
      | none => ⟨.noneV, w, 1, 0⟩
      | some bs =>
        if bs.isEmpty then ⟨.noneV, w, 1, 0⟩
        else
          if hosted0.isNone then
            let fname := stem ++ storedExt artCropUrl bs
            prepareUpscaleAndResolve cfg stem artCropUrl typeLine
              (saveOrUploadImage cfg w "original" fname)
              (hostedOriginalUrl cfg fname) true 1
          else prepareUpscaleAndResolve cfg stem artCropUrl typeLine w hosted0 true 1
    else prepareUpscaleAndResolve cfg stem artCropUrl typeLine w hosted0 false 0

/-! ## Capture orchestration (`process_and_capture_card`,
`src/automator.py`, lines 891–1117, and the outer loop of `main`,
`src/ccAutomator.py`, lines 793–800 and 934–936) -/

/-- Python `str(x)` as applied by `generate_safe_filename` to a possibly-`None`
set code or collector number. -/
def pyStr (o : Option String) : String := o.getD "None"

/-- Everything the renderer/search side contributes to one card's
processing: the card name, its reconciled dropdown prints, the Scryfall step-1
outcome, and the external world of its asset pipeline run. -/
structure CardJob where
  name : String
  prints : List PrintRec
  artCropUrl : String
  typeLine : String
  world : PipelineWorld
deriving Repr, DecidableEq

/-- The capture loop over the selected prints (`src/automator.py`,
lines 1005–1117) restricted to its exception structure: the art-preparation
step (lines 1044–1046) tuple-unpacks the result of `_prepare_art_asset` with
no surrounding handler, so a bare `None` raises `TypeError` out of the loop;
the field edits, capture and persist steps catch their own exceptions
(lines 1056–1117) and at worst skip the print, modelled as success.  Returns
the number of prints that reached the persist step. -/
def capturePrints (cfg : PipelineCfg) (job : CardJob) :
    List PrintRec → Except String Nat
  | [] => .ok 0
  | pd :: rest =>
    if cfg.imageServerUrl.isSome || cfg.downloadDir.isSome then
      match unpack2 (prepareArtAsset cfg job.name (pyStr pd.set_name)
          (pyStr pd.collector_number) job.artCropUrl job.typeLine job.world).ret with
      | .error e => .error e
      | .ok _ => (capturePrints cfg job rest).map (· + 1)
    else (capturePrints cfg job rest).map (· + 1)

/-- `process_and_capture_card` in Card Conjurer mode (`src/automator.py`,
lines 891–1117), from the already-reconciled print list: apply the selection
strategy (line 909); an empty selection logs and returns (lines 992–994);
otherwise run the capture loop, out of which the art-preparation `TypeError`
propagates uncaught. -/
def processAndCaptureCard (cfg : PipelineCfg) (strategy : String)
    (job : CardJob) : Except String Nat :=
  match selectPrintsFromCandidate job.prints strategy 0 with
  | [] => .ok 0
  | pd :: rest => capturePrints cfg job (pd :: rest)

/-- The main card loop of `main` (`src/ccAutomator.py`, lines 793–800): the
cards are processed in order with no per-card handler; the first exception
reaches the single outer `except` (lines 934–936), which prints and calls
`sys.exit(1)`.  Returns the number of cards attempted and the aborting
exception, if any; cards after an aborting card are never attempted. -/
def runMainLoop (cfg : PipelineCfg) (strategy : String) :
    List CardJob → Nat × Option String
  | [] => (0, none)
  | j :: js =>
    match processAndCaptureCard cfg strategy j with
    | .error e => (1, some e)
    | .ok _ =>
      let r := runMainLoop cfg strategy js
      (r.1 + 1, r.2)

/-! ## Theorems -/

/-- C4: the persist-step overwrite policy.  With no file at the output key
the write always happens; with an existing file the unconditional flag wins;
else a configured older-than threshold writes exactly when the existing
file's last-modified time is present and strictly older; else a newer-than
threshold writes exactly when strictly newer; else the write is skipped
(`shouldSkipPrint = true` is the intentional per-print skip, not a
failure). -/
theorem c4_overwrite_policy (lm : Option Int) (t : Int) (ow : Bool)
    (ot nt : Option Int) :
    (shouldSkipPrint true false lm ow ot nt = false) ∧
    (shouldSkipPrint true true lm true ot nt = false) ∧
    ((shouldSkipPrint true true lm false (some t) nt = false) ↔
      (∃ l, lm = some l ∧ l < t)) ∧
    ((shouldSkipPrint true true lm false none (some t) = false) ↔
      (∃ l, lm = some l ∧ t < l)) ∧
    (shouldSkipPrint true true lm false none none = true) := by
  refine ⟨rfl, rfl, ?_, ?_, ?_⟩
  · cases lm with
    | none => simp [shouldSkipPrint]
    | some l => by_cases hlt : l < t <;> simp [shouldSkipPrint, hlt]
  · cases lm with
    | none => simp [shouldSkipPrint]
    | some l => by_cases hlt : t < l <;> simp [shouldSkipPrint, hlt]
  · cases lm <;> rfl

/-- C5 counterexample: the claim's matrix says `older_than = T + 1h` skips;
at the concrete existing-file timestamp `T = 0` with the threshold `3600`
(one hour later) the code writes (`shouldSkipPrint` is `false`), because
`--overwrite-older-than` writes when the file time is strictly *below* the
threshold (`src/automator.py`, line 1020). -/
theorem c5_matrix_counterexample :
    ¬ (shouldSkipPrint true true (some 0) false (some 3600) none = true) := by
  decide

/-- C5 (amended): for an existing file with timestamp `T`:
`overwrite = True` always writes; `older_than = T + 1h` *writes* and
`older_than = T − 1h` *skips* (the two rows of the claimed matrix are
swapped); `newer_than = T − 1h` writes; `newer_than = T + 1h` skips; and no
flags with an existing file skips. -/
theorem c5_matrix_amended (T : Int) :
    (shouldSkipPrint true true (some T) true none none = false) ∧
    (shouldSkipPrint true true (some T) false (some (T + 3600)) none = false) ∧
    (shouldSkipPrint true true (some T) false (some (T - 3600)) none = true) ∧
    (shouldSkipPrint true true (some T) false none (some (T - 3600)) = false) ∧
    (shouldSkipPrint true true (some T) false none (some (T + 3600)) = true) ∧
    (shouldSkipPrint true true (some T) false none none = true) := by
  refine ⟨rfl, ?_, ?_, ?_, ?_, rfl⟩
  · have h : T < T + 3600 := by omega
    simp [shouldSkipPrint, h]
  · have h : ¬ (T < T - 3600) := by omega
    simp [shouldSkipPrint, h]
  · have h : T - 3600 < T := by omega
    simp [shouldSkipPrint, h]
  · have h : ¬ (T + 3600 < T) := by omega
    simp [shouldSkipPrint, h]

/-- C1: the selection strategies `latest`/`earliest`/`random` of
`_select_prints_from_candidate` return only the single representative print;
the set-code expansion described by the claim (and by the program's own
`--set-selection` help text, `src/ccAutomator.py`, line 186) does not happen.
On the newest-first candidate list `[LEA #1, 4ED #2, 4ED #3]` with policy
`earliest` the code returns only `[4ED #3]` while the claimed semantics
(`selectPrintsClaimed`) returns both 4ED prints; on the claim's own Island
fixture `[{LEA,1},{4ED,2}]` the two coincide at `[{4ED,2}]`, so that
concrete example does hold. -/
theorem c1_no_set_expansion :
    selectPrintsFromCandidate
      [⟨"0", "Island (LEA #1)", some "LEA", some "1"⟩,
       ⟨"1", "Island (4ED #2)", some "4ED", some "2"⟩,
       ⟨"2", "Island (4ED #3)", some "4ED", some "3"⟩] "earliest" 0 =
      [⟨"2", "Island (4ED #3)", some "4ED", some "3"⟩] ∧
    selectPrintsClaimed
      [⟨"0", "Island (LEA #1)", some "LEA", some "1"⟩,
       ⟨"1", "Island (4ED #2)", some "4ED", some "2"⟩,
       ⟨"2", "Island (4ED #3)", some "4ED", some "3"⟩] "earliest" 0 =
      [⟨"1", "Island (4ED #2)", some "4ED", some "2"⟩,
       ⟨"2", "Island (4ED #3)", some "4ED", some "3"⟩] ∧
    selectPrintsFromCandidate
      [⟨"0", "Island (LEA #1)", some "LEA", some "1"⟩,
       ⟨"1", "Island (4ED #2)", some "4ED", some "2"⟩,
       ⟨"2", "Island (4ED #3)", some "4ED", some "3"⟩] "earliest" 0 ≠
      selectPrintsClaimed
        [⟨"0", "Island (LEA #1)", some "LEA", some "1"⟩,
         ⟨"1", "Island (4ED #2)", some "4ED", some "2"⟩,
         ⟨"2", "Island (4ED #3)", some "4ED", some "3"⟩] "earliest" 0 ∧
    selectPrintsFromCandidate
      [⟨"0", "Island (LEA #1)", some "LEA", some "1"⟩,
       ⟨"1", "Island (4ED #2)", some "4ED", some "2"⟩] "earliest" 0 =
      [⟨"1", "Island (4ED #2)", some "4ED", some "2"⟩] := by
  refine ⟨rfl, rfl, ?_, rfl⟩
  decide

/-- C2: at a concrete pipeline state where no stored original exists and the
image fetch fails (`fetchResult = none`), `_prepare_art_asset` attempts the
fetch and returns the *bare* Python `None` of `src/mixins/image_mixin.py`,
line 407 — not the two-component `(None, …)` the claim describes — so the
caller's tuple unpacking (`src/automator.py`, line 1046) raises `TypeError`
instead of falling back to default art. -/
theorem c2_fetch_failure_returns_bare_none :
    (prepareArtAsset
      ⟨some "http://mtgproxy:4242", none, "/local_art/art/", false, none,
        "RealESRGAN_x2plus", 4⟩
      "Island" "lea" "1" "http://img/a.jpg" "Basic Land - Island"
      ⟨[], [], none, none⟩).ret = PyVal.noneV ∧
    (prepareArtAsset
      ⟨some "http://mtgproxy:4242", none, "/local_art/art/", false, none,
        "RealESRGAN_x2plus", 4⟩
      "Island" "lea" "1" "http://img/a.jpg" "Basic Land - Island"
      ⟨[], [], none, none⟩).fetchCalls = 1 ∧
    unpack2 (prepareArtAsset
      ⟨some "http://mtgproxy:4242", none, "/local_art/art/", false, none,
        "RealESRGAN_x2plus", 4⟩
      "Island" "lea" "1" "http://img/a.jpg" "Basic Land - Island"
      ⟨[], [], none, none⟩).ret = Except.error "TypeError" := by
  refine ⟨rfl, rfl, rfl⟩

/-- C3: on a two-card run where the first card's art fetch fails, the
`TypeError` raised by tuple-unpacking the bare `None` of
`_prepare_art_asset` escapes `process_and_capture_card` and, since the main
loop of `src/ccAutomator.py` (lines 793–800) has no per-card handler, reaches
the outer `except` (lines 934–936) which exits the run: only one card is
attempted and the second is never processed.  When no card raises, both cards
are processed. -/
theorem c3_card_failure_aborts_run :
    runMainLoop
      ⟨some "http://mtgproxy:4242", none, "/local_art/art/", false, none,
        "RealESRGAN_x2plus", 4⟩ "earliest"
      [⟨"Island", [⟨"0", "Island (LEA #1)", some "LEA", some "1"⟩],
        "http://img/a.jpg", "Basic Land - Island", ⟨[], [], none, none⟩⟩,
       ⟨"Mountain", [⟨"0", "Mountain (LEA #2)", some "LEA", some "2"⟩],
        "http://img/b.jpg", "Basic Land - Mountain",
        ⟨[], [], some [255, 216, 255, 1], none⟩⟩] = (1, some "TypeError") ∧
    runMainLoop
      ⟨some "http://mtgproxy:4242", none, "/local_art/art/", false, none,
        "RealESRGAN_x2plus", 4⟩ "earliest"
      [⟨"Island", [⟨"0", "Island (LEA #1)", some "LEA", some "1"⟩],
        "http://img/a.jpg", "Basic Land - Island",
        ⟨[], [], some [255, 216, 255, 1], none⟩⟩,
       ⟨"Mountain", [⟨"0", "Mountain (LEA #2)", some "LEA", some "2"⟩],
        "http://img/b.jpg", "Basic Land - Mountain",
        ⟨[], [], some [255, 216, 255, 1], none⟩⟩] = (2, none) := by
  refine ⟨rfl, rfl⟩

/-- C10: the storage existence probes report "does not exist" for every
outcome other than an HTTP 200 — a network exception and any non-200 status
(404 or otherwise) yield `(false, none)` from `check_server_file_details`
and `false` from `_check_if_file_exists_on_server`; a 200 response with an
unparsable `Last-Modified` yields existence with a null timestamp; and a
probe reporting non-existence makes the overwrite pre-check write
unconditionally (`shouldSkipPrint` with `fileExists = false` is never a
skip, whatever the flags). -/
theorem c10_probe_failure_means_missing
    (parseDate : String → Option Int) (url : String) (s : Nat)
    (lm : Option String) (hdr : String) (lmI : Option Int) (ow : Bool)
    (ot nt : Option Int) :
    (checkServerFileDetails parseDate url .exc = (false, none)) ∧
    (s ≠ 200 → checkServerFileDetails parseDate url (.resp s lm) = (false, none)) ∧
    (url.isEmpty = false → parseDate hdr = none →
      checkServerFileDetails parseDate url (.resp 200 (some hdr)) = (true, none)) ∧
    (checkIfFileExistsOnServer url .exc = false) ∧
    (s ≠ 200 → checkIfFileExistsOnServer url (.resp s lm) = false) ∧
    (shouldSkipPrint true false lmI ow ot nt = false) := by
  refine ⟨?_, ?_, ?_, ?_, ?_, rfl⟩
  · simp [checkServerFileDetails]
  · intro hs
    by_cases h404 : s = 404 <;>
      simp [checkServerFileDetails, hs, h404]
  · intro hurl hparse
    simp [checkServerFileDetails, hurl, hparse]
  · simp [checkIfFileExistsOnServer]
  · intro hs
    simp [checkIfFileExistsOnServer, hs]

/-- Witness for C10 at concrete inputs: a 503 response and a network
exception on `http://s/f.png` report non-existence, a 200 response whose
`Last-Modified` fails to parse reports existence with no timestamp, and a
non-existence report always writes. -/
theorem c10_witness :
    (checkServerFileDetails (fun _ => none) "http://s/f.png" .exc = (false, none)) ∧
    (checkServerFileDetails (fun _ => none) "http://s/f.png" (.resp 503 (some "bogus")) =
      (false, none)) ∧
    (checkServerFileDetails (fun _ => none) "http://s/f.png" (.resp 200 (some "bogus")) =
      (true, none)) ∧
    (checkIfFileExistsOnServer "http://s/f.png" .exc = false) ∧
    (checkIfFileExistsOnServer "http://s/f.png" (.resp 503 (some "bogus")) = false) ∧
    (shouldSkipPrint true false none false none none = false) := by
  have h := c10_probe_failure_means_missing (fun _ => none) "http://s/f.png" 503
    (some "bogus") "bogus" none false none none
  exact ⟨h.1, h.2.1 (by decide), h.2.2.1 (by decide) rfl, h.2.2.2.1,
    h.2.2.2.2.1 (by decide), h.2.2.2.2.2⟩

/-- C6 counterexample: the exact-match guard compares lower-cased strings
(`src/mixins/print_mixin.py`, line 48), so on the dropdown option
`"sol ring (LEA #1)"` with query `"Sol Ring"` the print is returned even
though its `display_text` does not begin with the requested card name —
the claim's case-sensitive invariant fails. -/
theorem c6_counterexample_case :
    exactMatchTexts "Sol Ring" ["sol ring (LEA #1)"] = ["sol ring (LEA #1)"] ∧
    ¬ List.isPrefixOf "Sol Ring".data "sol ring (LEA #1)".data = true := by
  refine ⟨rfl, by decide⟩

/-- C6 (amended): every option text returned by the exact-match guard of
`_get_and_filter_prints` begins *case-insensitively* with the requested card
name, followed by either end-of-string or `" ("`; and on the claim's fixture
`["Sol Ring (LEA #1)", "Sol Ring Fragment (ABC #2)"]` with query
`"Sol Ring"` only the first option is selected. -/
theorem c6_exact_match_guard :
    (∀ (cardName : String) (options : List String) (t : String),
      t ∈ exactMatchTexts cardName options →
      List.isPrefixOf (lowerStr cardName).data (lowerStr t).data = true ∧
        (t.data.length = cardName.data.length ∨
          (t.data.drop cardName.data.length).take 2 = [' ', '('])) ∧
    exactMatchTexts "Sol Ring" ["Sol Ring (LEA #1)", "Sol Ring Fragment (ABC #2)"] =
      ["Sol Ring (LEA #1)"] := by
  constructor
  · intro cardName options t ht
    have hk : exactMatchKeep cardName t = true :=
      List.of_mem_filter (by simpa [exactMatchTexts] using ht)
    have hk' := hk
    simp only [exactMatchKeep, Bool.and_eq_true, Bool.or_eq_true, beq_iff_eq] at hk'
    exact ⟨hk'.1, by
      rcases hk'.2 with h | h
      · exact Or.inl (by exact_mod_cast h)
      · exact Or.inr h⟩
  · rfl

/-- Witness for C6 at a concrete input: the returned option
`"Sol Ring (LEA #1)"` satisfies the case-insensitive prefix property. -/
theorem c6_witness :
    List.isPrefixOf (lowerStr "Sol Ring").data (lowerStr "Sol Ring (LEA #1)").data = true ∧
      ("Sol Ring (LEA #1)".data.length = "Sol Ring".data.length ∨
        ("Sol Ring (LEA #1)".data.drop "Sol Ring".data.length).take 2 = [' ', '(']) :=
  c6_exact_match_guard.1 "Sol Ring" ["Sol Ring (LEA #1)", "Sol Ring Fragment (ABC #2)"]
    "Sol Ring (LEA #1)" (by decide)

/-- C7 counterexample: on the empty local print list with
`include_sets = {"xyz"}` the search returns `([], false)` through the
no-exact-match early return (`src/mixins/print_mixin.py`, line 63), not the
`([], true)` the claim's universal statement demands (the post-exclusion
list with `fallback = True`). -/
theorem c7_counterexample_empty :
    getAndFilterPrints [] ["xyz"] [] = ([], false) ∧
    getAndFilterPrints [] ["xyz"] [] ≠ (excludeFiltered [] [], true) := by
  refine ⟨rfl, by decide⟩

/-- C7 (amended): for every *non-empty* local print list and filters with a
non-empty include list, if no print surviving the exclude filter carries a
set name lower-casing into the include list, then `_get_and_filter_prints`
returns exactly the post-exclusion list with `fallback = true`. -/
theorem c7_include_fallback
    (prints : List PrintRec) (includeSets excludeSets : List String)
    (hne : prints ≠ []) (hinc : includeSets ≠ [])
    (hnomatch : ∀ p ∈ excludeFiltered prints excludeSets,
      (match p.set_name with
       | some s => includeSets.contains (lowerStr s)
       | none => false) = false) :
    getAndFilterPrints prints includeSets excludeSets =
      (excludeFiltered prints excludeSets, true) := by
  have hpe : prints.isEmpty = false := by
    simpa [List.isEmpty_iff] using hne
  have hie : includeSets.isEmpty = false := by
    simpa [List.isEmpty_iff] using hinc
  have hfin : includeFiltered (excludeFiltered prints excludeSets) includeSets = [] := by
    simp only [includeFiltered, hie, Bool.false_eq_true, if_false]
    exact List.filter_eq_nil_iff.mpr (fun p hp => by simpa using hnomatch p hp)
  simp [getAndFilterPrints, hpe, hie, hfin]

/-- Witness for C7 at a concrete input: one LEA print with
`include_sets = ["xyz"]` and no excludes falls back to the (unchanged)
post-exclusion list with the fallback flag set. -/
theorem c7_witness :
    getAndFilterPrints [⟨"0", "Island (LEA #1)", some "LEA", some "1"⟩]
      ["xyz"] [] =
      (excludeFiltered [⟨"0", "Island (LEA #1)", some "LEA", some "1"⟩] [], true) :=
  c7_include_fallback [⟨"0", "Island (LEA #1)", some "LEA", some "1"⟩]
    ["xyz"] [] (by decide) (by decide) (by decide)

/-- Helper for C8: whatever the running window state, the polling loop with
`wait_for_change` set and prior hash `h` never returns `some h` — the only
return site yields a sample that passed both the non-empty check and the
prior-hash gate. -/
theorem stabLoop_ne_prior (h : String) :
    ∀ (samples : List (Option String)) (lastHash : Option String) (count : Nat),
      stabLoop samples (some h) true lastHash count ≠ some h := by
  intro samples
  induction samples with
  | nil => intro lastHash count; simp [stabLoop]
  | cons s rest ih =>
    intro lastHash count
    match s with
    | none => simpa only [stabLoop] using ih lastHash count
    | some cur =>
      simp only [stabLoop]
      split
      · exact ih lastHash count
      · split
        · exact ih lastHash count
        · rename_i hempty hgate
          have hcur : cur ≠ h := by
            by_cases he : cur.isEmpty
            · intro hch
              exact hempty he
            · intro hch
              subst hch
              exact hgate (by simp [pyTruthy, he])
          split <;> split <;>
            first
            | (intro hcontra; exact hcur (by simpa using hcontra))
            | exact ih (some cur) _

/-- Helper for C8: samples equal to the truthy prior hash are discarded
without touching the window state, so removing them from the poll sequence
does not change the loop's result. -/
theorem stabLoop_filter_prior (h : String) :
    ∀ (samples : List (Option String)) (lastHash : Option String) (count : Nat),
      stabLoop (samples.filter (fun s => s ≠ some h)) (some h) true lastHash count =
        stabLoop samples (some h) true lastHash count := by
  intro samples
  induction samples with
  | nil => intro lastHash count; rfl
  | cons s rest ih =>
    intro lastHash count
    by_cases hs : s = some h
    · subst hs
      have hf : ((some h :: rest).filter (fun s => s ≠ some h)) =
          rest.filter (fun s => s ≠ some h) := by
        simp
      rw [hf]
      by_cases he : h.isEmpty
      · simp only [stabLoop, he, if_true]
        exact ih lastHash count
      · have hgate : (true && pyTruthy (some h) && (some h == some h)) = true := by
          simp [pyTruthy, he]
        simp only [stabLoop, he, if_false, hgate, if_true]
        exact ih lastHash count
    · have hf : ((s :: rest).filter (fun s => s ≠ some h)) =
          s :: rest.filter (fun s => s ≠ some h) := by
        simp [hs]
      rw [hf]
      match s with
      | none =>
        simp only [stabLoop]
        exact ih lastHash count
      | some cur =>
        simp only [stabLoop]
        split
        · exact ih lastHash count
        · split
          · exact ih lastHash count
          · split <;> split <;>
              first
              | rfl
              | exact ih (some cur) _

/-- C8: with a non-null prior hash and `require_change = true`, the
stabilization wait never returns the prior hash itself — even when the prior
value is re-observed after an intermediate different sample — and samples
equal to the prior hash are discarded without counting toward the stability
window (removing them from the poll sequence leaves the result
unchanged). -/
theorem c8_stabilization_gating (h : String) (samples : List (Option String)) :
    waitForCanvasStabilization samples (some h) true ≠ some h ∧
    waitForCanvasStabilization samples (some h) true =
      waitForCanvasStabilization (samples.filter (fun s => s ≠ some h))
        (some h) true := by
  constructor
  · simpa only [waitForCanvasStabilization] using stabLoop_ne_prior h samples none 0
  · simpa only [waitForCanvasStabilization] using
      (stabLoop_filter_prior h samples none 0).symm

/-! ### Helper lemmas for the asset-pipeline idempotence claim -/

/-- Appending on the right of a fixed string is injective. -/
theorem string_append_right_inj (p : String) {a b : String}
    (h : p ++ a = p ++ b) : a = b := by
  have hd : p.data ++ a.data = p.data ++ b.data := congrArg String.data h
  have h2 := List.append_cancel_left hd
  cases a; cases b
  exact congrArg String.mk h2

/-- Two probe keys under the same stem agree only on equal extensions. -/
theorem serverArtUrl_inj (srv ap sub stem : String) {e1 e2 : String}
    (h : serverArtUrl srv ap sub (stem ++ e1) = serverArtUrl srv ap sub (stem ++ e2)) :
    e1 = e2 := by
  apply string_append_right_inj stem
  apply string_append_right_inj
    (if strEndsWith (osJoin2 ap sub) "/" then osJoin2 ap sub else osJoin2 ap sub ++ "/")
  apply string_append_right_inj srv
  exact h

/-- Two local probe paths under the same stem agree only on equal
extensions. -/
theorem localPathStr_inj (d ap sub stem : String) {e1 e2 : String}
    (h : localPathStr d ap sub (stem ++ e1) = localPathStr d ap sub (stem ++ e2)) :
    e1 = e2 := by
  apply string_append_right_inj stem
  apply string_append_right_inj (d ++ "/" ++ stripSlashes ap ++ "/" ++ sub ++ "/")
  exact h

/-- The sniffed extension is one of the four magic-byte extensions or
empty. -/
theorem sniff_ext_mem (b : List Nat) :
    (getImageMimeTypeAndExtension b).2 ∈ [".jpg", ".png", ".gif", ".webp", ""] := by
  unfold getImageMimeTypeAndExtension
  split
  · simp
  · split
    · simp
    · split
      · simp
      · split <;> simp

/-- Any of the base probe extensions is probed. -/
theorem mem_possibleExts_of_base (ext0 e : String)
    (hbase : e ∈ [".jpg", ".png", ".jpeg", ".webp", ".gif"]) :
    e ∈ possibleExts ext0 := by
  by_cases hco : e = ext0
  · subst hco
    exact List.mem_cons_self _ _
  · exact List.mem_cons_of_mem _ (List.mem_filter.mpr ⟨hbase, by simpa using hco⟩)

/-- The extension the fetched original is stored under is always probed:
either the sniffed magic-byte extension (which is in the base probe list) or,
when sniffing yields nothing, the initial guess heading the probe list. -/
theorem stored_ext_mem_possibleExts (ext0 : String) (b : List Nat) :
    (if (getImageMimeTypeAndExtension b).2.isEmpty then ext0
      else (getImageMimeTypeAndExtension b).2) ∈ possibleExts ext0 := by
  have hm := sniff_ext_mem b
  simp only [List.mem_cons, List.not_mem_nil, or_false] at hm
  rcases hm with h | h | h | h | h <;> rw [h]
  · rw [if_neg (by decide)]
    exact mem_possibleExts_of_base _ _ (by decide)
  · rw [if_neg (by decide)]
    exact mem_possibleExts_of_base _ _ (by decide)
  · rw [if_neg (by decide)]
    exact mem_possibleExts_of_base _ _ (by decide)
  · rw [if_neg (by decide)]
    exact mem_possibleExts_of_base _ _ (by decide)
  · rw [if_pos (by decide)]
    exact List.mem_cons_self _ _

/-- With upscaling disabled, stages 3–5 reduce to the pure resolution: the
world is untouched, no upscale happens, and the pipeline resolves to the
hosted original when there is one, else to the raw art crop URL. -/
theorem prepareUpscaleAndResolve_noUpscale (cfg : PipelineCfg)
    (stem artCropUrl typeLine : String) (w : PipelineWorld)
    (hostedOrig : Option String) (hasBytes : Bool) (fetchCalls : Nat)
    (hup : cfg.upscaleArt = false) :
    prepareUpscaleAndResolve cfg stem artCropUrl typeLine w hostedOrig hasBytes
      fetchCalls =
      ⟨.pairV (some (hostedOrig.getD artCropUrl)) (some typeLine), w, fetchCalls, 0⟩ := by
  cases hostedOrig <;> simp [prepareUpscaleAndResolve, hup]

/-- A failed probe with only the image server configured means every
candidate extension missed the server store. -/
theorem probe_none_miss_server (srv ap upM : String) (up : Bool)
    (il : Option String) (fac : Nat) (w : PipelineWorld) (stem : String) :
    ∀ exts : List String,
      probeOriginalArt ⟨some srv, none, ap, up, il, upM, fac⟩ w stem exts = none →
      ∀ e ∈ exts,
        w.serverFiles.contains (serverArtUrl srv ap "original" (stem ++ e)) = false := by
  intro exts
  induction exts with
  | nil =>
    intro _ e he
    exact absurd he (List.not_mem_nil e)
  | cons e rest ih =>
    intro hnone f hf
    simp only [probeOriginalArt] at hnone
    rcases hcs : w.serverFiles.contains (serverArtUrl srv ap "original" (stem ++ e)) with _ | _ <;>
      rw [hcs] at hnone
    · rcases List.mem_cons.mp hf with hfe | hfr
      · subst hfe
        exact hcs
      · exact ih (by simpa using hnone) f hfr
    · simp at hnone

/-- A failed probe with only the download directory configured means every
candidate extension missed the local store. -/
theorem probe_none_miss_local (d ap upM : String) (up : Bool)
    (il : Option String) (fac : Nat) (w : PipelineWorld) (stem : String) :
    ∀ exts : List String,
      probeOriginalArt ⟨none, some d, ap, up, il, upM, fac⟩ w stem exts = none →
      ∀ e ∈ exts,
        w.localFiles.contains (localPathStr d ap "original" (stem ++ e)) = false := by
  intro exts
  induction exts with
  | nil =>
    intro _ e he
    exact absurd he (List.not_mem_nil e)
  | cons e rest ih =>
    intro hnone f hf
    simp only [probeOriginalArt] at hnone
    rcases hcl : w.localFiles.contains (localPathStr d ap "original" (stem ++ e)) with _ | _ <;>
      rw [hcl] at hnone
    · rcases List.mem_cons.mp hf with hfe | hfr
      · subst hfe
        exact hcl
      · exact ih (by simpa using hnone) f hfr
    · simp at hnone

/-- A failed probe with both stores configured means every candidate
extension missed both. -/
theorem probe_none_miss_both (srv d ap upM : String) (up : Bool)
    (il : Option String) (fac : Nat) (w : PipelineWorld) (stem : String) :
    ∀ exts : List String,
      probeOriginalArt ⟨some srv, some d, ap, up, il, upM, fac⟩ w stem exts = none →
      ∀ e ∈ exts,
        w.serverFiles.contains (serverArtUrl srv ap "original" (stem ++ e)) = false ∧
        w.localFiles.contains (localPathStr d ap "original" (stem ++ e)) = false := by
  intro exts
  induction exts with
  | nil =>
    intro _ e he
    exact absurd he (List.not_mem_nil e)
  | cons e rest ih =>
    intro hnone f hf
    simp only [probeOriginalArt] at hnone
    rcases hcs : w.serverFiles.contains (serverArtUrl srv ap "original" (stem ++ e)) with _ | _ <;>
      rw [hcs] at hnone
    · rcases hcl : w.localFiles.contains (localPathStr d ap "original" (stem ++ e)) with _ | _ <;>
        rw [hcl] at hnone
      · rcases List.mem_cons.mp hf with hfe | hfr
        · subst hfe
          exact ⟨hcs, hcl⟩
        · exact ih (by simpa using hnone) f hfr
      · simp at hnone
    · simp at hnone

/-- After uploading the original under extension `extF` (server-only
configuration), a re-probe over any extension list that previously missed
everywhere and contains `extF` finds exactly the uploaded key. -/
theorem probe_finds_saved_server (srv ap upM : String) (up : Bool)
    (il : Option String) (fac : Nat) (w : PipelineWorld) (stem extF : String) :
    ∀ exts : List String, extF ∈ exts →
      (∀ e ∈ exts,
        w.serverFiles.contains (serverArtUrl srv ap "original" (stem ++ e)) = false) →
      probeOriginalArt ⟨some srv, none, ap, up, il, upM, fac⟩
        { w with serverFiles :=
            serverArtUrl srv ap "original" (stem ++ extF) :: w.serverFiles }
        stem exts =
        some (serverArtUrl srv ap "original" (stem ++ extF)) := by
  intro exts
  induction exts with
  | nil =>
    intro hmem _
    exact absurd hmem (List.not_mem_nil extF)
  | cons e rest ih =>
    intro hmem hmiss
    by_cases he : e = extF
    · subst he
      simp only [probeOriginalArt]
      rw [if_pos (by simp)]
    · have hkey : serverArtUrl srv ap "original" (stem ++ e) ≠
          serverArtUrl srv ap "original" (stem ++ extF) := fun hcontra =>
        he (serverArtUrl_inj srv ap "original" stem hcontra)
      have hcs :
          (({ w with
              serverFiles := serverArtUrl srv ap "original" (stem ++ extF) :: w.serverFiles } :
            PipelineWorld)).serverFiles.contains
            (serverArtUrl srv ap "original" (stem ++ e)) = false := by
        simp only [List.contains_cons, Bool.or_eq_false_iff]
        exact ⟨by simpa using hkey, hmiss e (List.mem_cons_self e rest)⟩
      simp only [probeOriginalArt, hcs]
      rw [if_neg (by simp)]
      exact ih (by rcases List.mem_cons.mp hmem with h | h
                   · exact absurd h.symm he
                   · exact h)
        (fun f hf => hmiss f (List.mem_cons_of_mem e hf))

/-- After writing the original under extension `extF` (download-directory-only
configuration), a re-probe finds exactly the written local path. -/
theorem probe_finds_saved_local (d ap upM : String) (up : Bool)
    (il : Option String) (fac : Nat) (w : PipelineWorld) (stem extF : String) :
    ∀ exts : List String, extF ∈ exts →
      (∀ e ∈ exts,
        w.localFiles.contains (localPathStr d ap "original" (stem ++ e)) = false) →
      probeOriginalArt ⟨none, some d, ap, up, il, upM, fac⟩
        { w with localFiles :=
            localPathStr d ap "original" (stem ++ extF) :: w.localFiles }
        stem exts =
        some (localPathStr d ap "original" (stem ++ extF)) := by
  intro exts
  induction exts with
  | nil =>
    intro hmem _
    exact absurd hmem (List.not_mem_nil extF)
  | cons e rest ih =>
    intro hmem hmiss
    by_cases he : e = extF
    · subst he
      simp only [probeOriginalArt]
      rw [if_pos (by simp)]
    · have hkey : localPathStr d ap "original" (stem ++ e) ≠
          localPathStr d ap "original" (stem ++ extF) := fun hcontra =>
        he (localPathStr_inj d ap "original" stem hcontra)
      have hcl :
          (({ w with
              localFiles := localPathStr d ap "original" (stem ++ extF) :: w.localFiles } :
            PipelineWorld)).localFiles.contains
            (localPathStr d ap "original" (stem ++ e)) = false := by
        simp only [List.contains_cons, Bool.or_eq_false_iff]
        exact ⟨by simpa using hkey, hmiss e (List.mem_cons_self e rest)⟩
      simp only [probeOriginalArt, hcl]
      rw [if_neg (by simp)]
      exact ih (by rcases List.mem_cons.mp hmem with h | h
                   · exact absurd h.symm he
                   · exact h)
        (fun f hf => hmiss f (List.mem_cons_of_mem e hf))

/-- After writing the original locally under extension `extF` with both
stores configured (`_save_or_upload_image` prefers the local write), a
re-probe misses the untouched server store, hits the local file, and — the
server being configured — resolves to the server URL, exactly as the fetch
path of stage 2 does. -/
theorem probe_finds_saved_both (srv d ap upM : String) (up : Bool)
    (il : Option String) (fac : Nat) (w : PipelineWorld) (stem extF : String) :
    ∀ exts : List String, extF ∈ exts →
      (∀ e ∈ exts,
        w.serverFiles.contains (serverArtUrl srv ap "original" (stem ++ e)) = false ∧
        w.localFiles.contains (localPathStr d ap "original" (stem ++ e)) = false) →
      probeOriginalArt ⟨some srv, some d, ap, up, il, upM, fac⟩
        { w with localFiles :=
            localPathStr d ap "original" (stem ++ extF) :: w.localFiles }
        stem exts =
        some (serverArtUrl srv ap "original" (stem ++ extF)) := by
  intro exts
  induction exts with
  | nil =>
    intro hmem _
    exact absurd hmem (List.not_mem_nil extF)
  | cons e rest ih =>
    intro hmem hmiss
    by_cases he : e = extF
    · subst he
      have hcs := (hmiss e (List.mem_cons_self e rest)).1
      simp only [probeOriginalArt, hcs]
      rw [if_neg (by simp), if_pos (by simp)]
    · have hkey : localPathStr d ap "original" (stem ++ e) ≠
          localPathStr d ap "original" (stem ++ extF) := fun hcontra =>
        he (localPathStr_inj d ap "original" stem hcontra)
      have hcs := (hmiss e (List.mem_cons_self e rest)).1
      have hcl :
          (({ w with
              localFiles := localPathStr d ap "original" (stem ++ extF) :: w.localFiles } :
            PipelineWorld)).localFiles.contains
            (localPathStr d ap "original" (stem ++ e)) = false := by
        simp only [List.contains_cons, Bool.or_eq_false_iff]
        exact ⟨by simpa using hkey, (hmiss e (List.mem_cons_self e rest)).2⟩
      simp only [probeOriginalArt, hcs, hcl]
      rw [if_neg (by simp), if_neg (by simp)]
      exact ih (by rcases List.mem_cons.mp hmem with h | h
                   · exact absurd h.symm he
                   · exact h)
        (fun f hf => hmiss f (List.mem_cons_of_mem e hf))

/-- With a store configured and no upscaling, a probe hit short-circuits the
pipeline: no fetch, no upscale, no store mutation, resolution to the hit. -/
theorem prepareArtAsset_probe_hit (cfg : PipelineCfg)
    (cn sc num url tl : String) (w : PipelineWorld) (u0 : String)
    (hurl : url.isEmpty = false)
    (hguard : (cfg.imageServerUrl.isSome || cfg.downloadDir.isSome) = true)
    (hup : cfg.upscaleArt = false)
    (hprobe : probeOriginalArt cfg w (artStem cn sc num)
      (possibleExts (initialExtGuess url)) = some u0) :
    prepareArtAsset cfg cn sc num url tl w =
      ⟨.pairV (some u0) (some tl), w, 0, 0⟩ := by
  simp only [prepareArtAsset, hurl, Bool.false_eq_true, if_false, hguard, if_true,
    hprobe, Option.isNone_some, hup, Bool.or_self]
  all_goals exact prepareUpscaleAndResolve_noUpscale cfg _ url tl w (some u0) false 0 hup

/-- With a store configured and no upscaling, a full probe miss followed by a
successful fetch stores the original once and resolves to its hosted URL. -/
theorem prepareArtAsset_fetch_path (cfg : PipelineCfg)
    (cn sc num url tl : String) (w : PipelineWorld) (bs : List Nat)
    (hurl : url.isEmpty = false)
    (hguard : (cfg.imageServerUrl.isSome || cfg.downloadDir.isSome) = true)
    (hup : cfg.upscaleArt = false)
    (hprobe : probeOriginalArt cfg w (artStem cn sc num)
      (possibleExts (initialExtGuess url)) = none)
    (hfetch : w.fetchResult = some bs) (hbs : bs.isEmpty = false) :
    prepareArtAsset cfg cn sc num url tl w =
      ⟨.pairV (some ((hostedOriginalUrl cfg
          (artStem cn sc num ++ storedExt url bs)).getD url)) (some tl),
        saveOrUploadImage cfg w "original" (artStem cn sc num ++ storedExt url bs),
        1, 0⟩ := by
  simp only [prepareArtAsset, hurl, Bool.false_eq_true, if_false, hguard, if_true,
    hprobe, Option.isNone_none, Bool.true_or, hfetch, hbs]
  all_goals rw [prepareUpscaleAndResolve_noUpscale cfg _ url tl _ _ true 1 hup]

/-- With a store configured and no upscaling, a full probe miss followed by a
failed (or empty) fetch runs into the bare-`None` return of stage 2. -/
theorem prepareArtAsset_fetch_fail (cfg : PipelineCfg)
    (cn sc num url tl : String) (w : PipelineWorld)
    (hurl : url.isEmpty = false)
    (hguard : (cfg.imageServerUrl.isSome || cfg.downloadDir.isSome) = true)
    (hprobe : probeOriginalArt cfg w (artStem cn sc num)
      (possibleExts (initialExtGuess url)) = none)
    (hfetch : w.fetchResult = none ∨ w.fetchResult = some [] ) :
    prepareArtAsset cfg cn sc num url tl w = ⟨.noneV, w, 1, 0⟩ := by
  rcases hfetch with hf | hf <;>
    simp [prepareArtAsset, hurl, hguard, hprobe, hf]

/-- C9 counterexample: with upscaling enabled, the fetch stage runs whenever
`self.upscale_art` is set (`src/mixins/image_mixin.py`, line 390:
`if not hosted_original_art_url or self.upscale_art`), even against a store
that already contains both the original and the upscaled output of the first
call — the second call succeeds with the same resolved URL and skips the
upscale, but still invokes the image fetch once, refuting "invokes neither
the image fetch nor the upscale transform on the second call". -/
theorem c9_counterexample_upscale_refetch :
    ((prepareArtAsset
        ⟨some "http://mtgproxy:4242", none, "/local_art/art/", true,
          some "http://ilaria/", "RealESRGAN_x2plus", 4⟩
        "Island" "lea" "1" "http://img/a.jpg" "tl"
        ⟨[], [], some [255, 216, 255, 1, 2],
          some [137, 80, 78, 71, 13, 10, 26, 10, 7]⟩).ret =
      PyVal.pairV
        (some "http://mtgproxy:4242/local_art/art/realesrgan_x2plus-4x/island_lea_1.png")
        (some "tl")) ∧
    ((prepareArtAsset
        ⟨some "http://mtgproxy:4242", none, "/local_art/art/", true,
          some "http://ilaria/", "RealESRGAN_x2plus", 4⟩
        "Island" "lea" "1" "http://img/a.jpg" "tl"
        ((prepareArtAsset
          ⟨some "http://mtgproxy:4242", none, "/local_art/art/", true,
            some "http://ilaria/", "RealESRGAN_x2plus", 4⟩
          "Island" "lea" "1" "http://img/a.jpg" "tl"
          ⟨[], [], some [255, 216, 255, 1, 2],
            some [137, 80, 78, 71, 13, 10, 26, 10, 7]⟩).world)).fetchCalls = 1) ∧
    ((prepareArtAsset
        ⟨some "http://mtgproxy:4242", none, "/local_art/art/", true,
          some "http://ilaria/", "RealESRGAN_x2plus", 4⟩
        "Island" "lea" "1" "http://img/a.jpg" "tl"
        ((prepareArtAsset
          ⟨some "http://mtgproxy:4242", none, "/local_art/art/", true,
            some "http://ilaria/", "RealESRGAN_x2plus", 4⟩
          "Island" "lea" "1" "http://img/a.jpg" "tl"
          ⟨[], [], some [255, 216, 255, 1, 2],
            some [137, 80, 78, 71, 13, 10, 26, 10, 7]⟩).world)).upscaleCalls = 0) := by
  refine ⟨by decide, by decide, by decide⟩

/-- C9 (amended): with upscaling *disabled* and a store destination
configured, calling `_prepare_art_asset` a second time with the same
`(card_name, set_code, collector_number)` against the store left by a
successful first call invokes neither the image fetch nor the upscale
transform and returns the same resolved URL (the whole returned pair is
identical); with upscaling enabled the second call re-fetches
(`c9_counterexample_upscale_refetch`). -/
theorem c9_second_call_cached (cfg : PipelineCfg)
    (cn sc num url tl : String) (w : PipelineWorld) (u t : Option String)
    (hup : cfg.upscaleArt = false)
    (hstore : cfg.imageServerUrl.isSome ∨ cfg.downloadDir.isSome)
    (h1 : (prepareArtAsset cfg cn sc num url tl w).ret = PyVal.pairV u t) :
    (prepareArtAsset cfg cn sc num url tl
        (prepareArtAsset cfg cn sc num url tl w).world).fetchCalls = 0 ∧
    (prepareArtAsset cfg cn sc num url tl
        (prepareArtAsset cfg cn sc num url tl w).world).upscaleCalls = 0 ∧
    (prepareArtAsset cfg cn sc num url tl
        (prepareArtAsset cfg cn sc num url tl w).world).ret =
      (prepareArtAsset cfg cn sc num url tl w).ret := by
  have hguard : (cfg.imageServerUrl.isSome || cfg.downloadDir.isSome) = true := by
    rcases hstore with h | h <;> simp [h]
  by_cases hurlT : url.isEmpty
  · refine ⟨?_, ?_, ?_⟩ <;> simp [prepareArtAsset, hurlT]
  · replace hurlT : url.isEmpty = false := by simpa using hurlT
    cases hprobe : probeOriginalArt cfg w (artStem cn sc num)
        (possibleExts (initialExtGuess url)) with
    | some u0 =>
      have hr1 := prepareArtAsset_probe_hit cfg cn sc num url tl w u0 hurlT hguard hup hprobe
      have hw1 : (prepareArtAsset cfg cn sc num url tl w).world = w := by rw [hr1]
      rw [hw1, hr1]
      exact ⟨rfl, rfl, rfl⟩
    | none =>
      cases hfetch : w.fetchResult with
      | none =>
        have hfail := prepareArtAsset_fetch_fail cfg cn sc num url tl w hurlT hguard
          hprobe (Or.inl hfetch)
        rw [hfail] at h1
        exact absurd h1 (by simp)
      | some bs =>
        rcases hbsE : bs.isEmpty with _ | _
        · have hr1 := prepareArtAsset_fetch_path cfg cn sc num url tl w bs hurlT hguard
            hup hprobe hfetch hbsE
          have hw1 : (prepareArtAsset cfg cn sc num url tl w).world =
              saveOrUploadImage cfg w "original"
                (artStem cn sc num ++ storedExt url bs) := by
            rw [hr1]
          have hmem : storedExt url bs ∈ possibleExts (initialExtGuess url) :=
            stored_ext_mem_possibleExts (initialExtGuess url) bs
          rw [hw1]
          obtain ⟨srvO, dirO, ap, up, il, mdl, fac⟩ := cfg
          cases srvO with
          | none =>
            cases dirO with
            | none => simp at hguard
            | some d =>
              have hmiss := probe_none_miss_local d ap mdl up il fac w
                (artStem cn sc num) (possibleExts (initialExtGuess url)) hprobe
              have hprobe2 := probe_finds_saved_local d ap mdl up il fac w
                (artStem cn sc num) (storedExt url bs)
                (possibleExts (initialExtGuess url)) hmem hmiss
              have hsave : saveOrUploadImage ⟨none, some d, ap, up, il, mdl, fac⟩ w
                  "original" (artStem cn sc num ++ storedExt url bs) =
                  { w with localFiles := localPathStr d ap "original" (artStem cn sc num ++ storedExt url bs) :: w.localFiles } := rfl
              rw [hsave]
              have hr2 := prepareArtAsset_probe_hit ⟨none, some d, ap, up, il, mdl, fac⟩
                cn sc num url tl
                { w with localFiles := localPathStr d ap "original" (artStem cn sc num ++ storedExt url bs) :: w.localFiles }
                (localPathStr d ap "original" (artStem cn sc num ++ storedExt url bs))
                hurlT hguard hup hprobe2
              rw [hr2, hr1]
              exact ⟨rfl, rfl, rfl⟩
          | some srv =>
            cases dirO with
            | none =>
              have hmiss := probe_none_miss_server srv ap mdl up il fac w
                (artStem cn sc num) (possibleExts (initialExtGuess url)) hprobe
              have hprobe2 := probe_finds_saved_server srv ap mdl up il fac w
                (artStem cn sc num) (storedExt url bs)
                (possibleExts (initialExtGuess url)) hmem hmiss
              have hsave : saveOrUploadImage ⟨some srv, none, ap, up, il, mdl, fac⟩ w
                  "original" (artStem cn sc num ++ storedExt url bs) =
                  { w with serverFiles := serverArtUrl srv ap "original" (artStem cn sc num ++ storedExt url bs) :: w.serverFiles } := rfl
              rw [hsave]
              have hr2 := prepareArtAsset_probe_hit ⟨some srv, none, ap, up, il, mdl, fac⟩
                cn sc num url tl
                { w with serverFiles := serverArtUrl srv ap "original" (artStem cn sc num ++ storedExt url bs) :: w.serverFiles }
                (serverArtUrl srv ap "original" (artStem cn sc num ++ storedExt url bs))
                hurlT hguard hup hprobe2
              rw [hr2, hr1]
              exact ⟨rfl, rfl, rfl⟩
            | some d =>
              have hmiss := probe_none_miss_both srv d ap mdl up il fac w
                (artStem cn sc num) (possibleExts (initialExtGuess url)) hprobe
              have hprobe2 := probe_finds_saved_both srv d ap mdl up il fac w
                (artStem cn sc num) (storedExt url bs)
                (possibleExts (initialExtGuess url)) hmem hmiss
              have hsave : saveOrUploadImage ⟨some srv, some d, ap, up, il, mdl, fac⟩ w
                  "original" (artStem cn sc num ++ storedExt url bs) =
                  { w with localFiles := localPathStr d ap "original" (artStem cn sc num ++ storedExt url bs) :: w.localFiles } := rfl
              rw [hsave]
              have hr2 := prepareArtAsset_probe_hit ⟨some srv, some d, ap, up, il, mdl, fac⟩
                cn sc num url tl
                { w with localFiles := localPathStr d ap "original" (artStem cn sc num ++ storedExt url bs) :: w.localFiles }
                (serverArtUrl srv ap "original" (artStem cn sc num ++ storedExt url bs))
                hurlT hguard hup hprobe2
              rw [hr2, hr1]
              exact ⟨rfl, rfl, rfl⟩
        · have hbs0 : bs = [] := by
            cases bs with
            | nil => rfl
            | cons x xs => simp at hbsE
          subst hbs0
          have hfail := prepareArtAsset_fetch_fail cfg cn sc num url tl w hurlT hguard
            hprobe (Or.inr hfetch)
          rw [hfail] at h1
          exact absurd h1 (by simp)

/-- Witness for C9 at a concrete input: an image-server-only configuration
with upscaling disabled, an empty store and a successful JPEG fetch — the
first call stores and resolves the original, and the second call against the
resulting store performs no fetch and no upscale and returns the same
pair. -/
theorem c9_witness :
    (prepareArtAsset
        ⟨some "http://mtgproxy:4242", none, "/local_art/art/", false, none,
          "RealESRGAN_x2plus", 4⟩
        "Island" "lea" "1" "http://img/a.jpg" "tl"
        ((prepareArtAsset
          ⟨some "http://mtgproxy:4242", none, "/local_art/art/", false, none,
            "RealESRGAN_x2plus", 4⟩
          "Island" "lea" "1" "http://img/a.jpg" "tl"
          ⟨[], [], some [255, 216, 255, 1, 2], none⟩).world)).fetchCalls = 0 ∧
    (prepareArtAsset
        ⟨some "http://mtgproxy:4242", none, "/local_art/art/", false, none,
          "RealESRGAN_x2plus", 4⟩
        "Island" "lea" "1" "http://img/a.jpg" "tl"
        ((prepareArtAsset
          ⟨some "http://mtgproxy:4242", none, "/local_art/art/", false, none,
            "RealESRGAN_x2plus", 4⟩
          "Island" "lea" "1" "http://img/a.jpg" "tl"
          ⟨[], [], some [255, 216, 255, 1, 2], none⟩).world)).upscaleCalls = 0 ∧
    (prepareArtAsset
        ⟨some "http://mtgproxy:4242", none, "/local_art/art/", false, none,
          "RealESRGAN_x2plus", 4⟩
        "Island" "lea" "1" "http://img/a.jpg" "tl"
        ((prepareArtAsset
          ⟨some "http://mtgproxy:4242", none, "/local_art/art/", false, none,
            "RealESRGAN_x2plus", 4⟩
          "Island" "lea" "1" "http://img/a.jpg" "tl"
          ⟨[], [], some [255, 216, 255, 1, 2], none⟩).world)).ret =
      (prepareArtAsset
        ⟨some "http://mtgproxy:4242", none, "/local_art/art/", false, none,
          "RealESRGAN_x2plus", 4⟩
        "Island" "lea" "1" "http://img/a.jpg" "tl"
        ⟨[], [], some [255, 216, 255, 1, 2], none⟩).ret :=
  c9_second_call_cached
    ⟨some "http://mtgproxy:4242", none, "/local_art/art/", false, none,
      "RealESRGAN_x2plus", 4⟩
    "Island" "lea" "1" "http://img/a.jpg" "tl"
    ⟨[], [], some [255, 216, 255, 1, 2], none⟩
    (some "http://mtgproxy:4242/local_art/art/original/island_lea_1.jpg")
    (some "tl") rfl (Or.inl rfl) (by decide)

end CcAutomator
